import Mathlib

/-!
Shallow embedding of the flow-manager core (src/models.py, src/flow_manager.py).

Data model: `TaskStatus`, `FlowStatus`, `TaskResult`, `TaskConfig`,
`ConditionConfig`, `FlowConfig`, `FlowExecutionState` follow the dataclasses in
src/models.py.  The opaque payload fields (`data`, `execution_time`,
`timestamp`, `parameters` contents) are irrelevant to every property below and
are either elided or kept as opaque string maps.

The engine `FlowManager.execute_flow` is embedded as a fuel-indexed loop
(`runLoop`) over an explicit execution state; Python timestamps are abstracted
to the constants `some 0` (started) / `some 1` (ended); Python dicts become
insertion-ordered association lists with `insertAssoc` matching dict assignment
(overwrite in place, else append).  Task executors are opaque: an oracle
`TaskConfig → context → ExecOutcome` stands for `task.execute(context)`, where
`ExecOutcome.threw` models a raised exception and `ExecOutcome.ok` a returned
`TaskResult`.  `TaskFactory.create_task` raises on a registry miss; the
registry is the list of registered task-type keys.
-/

inductive TaskStatus where
  | pending
  | running
  | success
  | failure
  | skipped
deriving DecidableEq, Repr

inductive FlowStatus where
  | created
  | running
  | success
  | failure
  | ended
deriving DecidableEq, Repr

/-- Embeds `TaskResult` from src/models.py (fields `data`, `execution_time`,
`timestamp` elided: no claim inspects them). -/
structure TaskResult where
  task_name : String
  status : TaskStatus
  message : String := ""
  error : Option String := none
deriving DecidableEq, Repr

/-- Embeds `TaskConfig` from src/models.py; the opaque parameter bag is a string map. -/
structure TaskConfig where
  name : String
  description : String
  task_type : String := "generic"
  parameters : List (String × String) := []
deriving DecidableEq, Repr

/-- Embeds `ConditionConfig` from src/models.py. -/
structure ConditionConfig where
  name : String
  description : String
  source_task : String
  outcome : String
  target_task_success : String
  target_task_failure : String
deriving DecidableEq, Repr

/-- Embeds `FlowConfig` from src/models.py. -/
structure FlowConfig where
  id : String
  name : String
  start_task : String
  tasks : List TaskConfig
  conditions : List ConditionConfig
deriving DecidableEq, Repr

/-- Source `FlowConfig.get_task_by_name`: first task with the given name, else `None`. -/
def FlowConfig.get_task_by_name (cfg : FlowConfig) (task_name : String) : Option TaskConfig :=
  cfg.tasks.find? (fun t => t.name = task_name)

/-- Source `FlowConfig.get_condition_for_task`: first condition whose `source_task`
matches, else `None`. -/
def FlowConfig.get_condition_for_task (cfg : FlowConfig) (task_name : String) : Option ConditionConfig :=
  cfg.conditions.find? (fun c => c.source_task = task_name)

/-- Embeds `FlowExecutionState` from src/models.py; `task_results` is an
insertion-ordered association list standing for the Python dict. -/
structure FlowExecutionState where
  flow_id : String
  flow_name : String
  current_task : Option String := none
  status : FlowStatus := FlowStatus.created
  completed_tasks : List String := []
  task_results : List (String × TaskResult) := []
  started_at : Option Nat := none
  ended_at : Option Nat := none
deriving DecidableEq, Repr

/-- Source `ConditionEvaluator.evaluate_condition` from src/flow_manager.py lines
52-69, translated branch for branch. -/
def evaluate_condition (condition : ConditionConfig) (task_result : TaskResult) : String :=
  if condition.outcome = "success" then
    if task_result.status = TaskStatus.success then
      condition.target_task_success
    else
      condition.target_task_failure
  else if condition.outcome = "failure" then
    if task_result.status = TaskStatus.failure then
      condition.target_task_success
    else
      condition.target_task_failure
  else
    if task_result.status = TaskStatus.failure then
      condition.target_task_failure
    else
      condition.target_task_success

/-! ## Definition ingestion (`FlowManager.load_flow_config`, lines 80-114)

The input dictionary is embedded structurally: every key that the Python code
reads through `.get` or `[...]` becomes an `Option` field, `none` meaning the
key is absent.  `dict[key]` on an absent key raises `KeyError`, embedded as
`Except.error`. -/

structure RawTask where
  name : Option String := none
  description : Option String := none
  task_type : Option String := none
  parameters : Option (List (String × String)) := none
deriving DecidableEq, Repr

structure RawCondition where
  name : Option String := none
  description : Option String := none
  source_task : Option String := none
  outcome : Option String := none
  target_task_success : Option String := none
  target_task_failure : Option String := none
deriving DecidableEq, Repr

structure RawFlow where
  id : Option String := none
  name : Option String := none
  start_task : Option String := none
  tasks : Option (List RawTask) := none
  conditions : Option (List RawCondition) := none
deriving DecidableEq, Repr

structure RawConfig where
  flow : Option RawFlow := none
deriving DecidableEq, Repr

deriving instance DecidableEq for Except

/-- Python `dict[key]`: value or `KeyError`. -/
def getItem {α : Type} (v : Option α) (key : String) : Except String α :=
  match v with
  | some x => Except.ok x
  | none => Except.error key

/-- The default used for a missing `task_type`:
`task_data['name'].replace(' ', '_').lower()`. -/
def defaultTaskType (name : String) : String :=
  String.mk (name.data.map (fun c => if c = ' ' then '_' else c.toLower))

/-- One iteration of the task-parsing loop: `name` and `description` are read
with `dict[...]` (required), `task_type` and `parameters` with `.get`
(defaulted).  The Python default expression for `task_type` reads
`task_data['name']`, but `name` was already required first. -/
def parseTask (task_data : RawTask) : Except String TaskConfig := do
  let name ← getItem task_data.name "name"
  let description ← getItem task_data.description "description"
  pure { name := name
         description := description
         task_type := task_data.task_type.getD (defaultTaskType name)
         parameters := task_data.parameters.getD [] }

def parseTasks : List RawTask → Except String (List TaskConfig)
  | [] => Except.ok []
  | t :: ts =>
    match parseTask t with
    | Except.error e => Except.error e
    | Except.ok c =>
      match parseTasks ts with
      | Except.error e => Except.error e
      | Except.ok cs => Except.ok (c :: cs)

/-- One iteration of the condition-parsing loop: every field is read with
`dict[...]` (required). -/
def parseCondition (condition_data : RawCondition) : Except String ConditionConfig := do
  let name ← getItem condition_data.name "name"
  let description ← getItem condition_data.description "description"
  let source_task ← getItem condition_data.source_task "source_task"
  let outcome ← getItem condition_data.outcome "outcome"
  let target_task_success ← getItem condition_data.target_task_success "target_task_success"
  let target_task_failure ← getItem condition_data.target_task_failure "target_task_failure"
  pure { name := name
         description := description
         source_task := source_task
         outcome := outcome
         target_task_success := target_task_success
         target_task_failure := target_task_failure }

def parseConditions : List RawCondition → Except String (List ConditionConfig)
  | [] => Except.ok []
  | c :: cs =>
    match parseCondition c with
    | Except.error e => Except.error e
    | Except.ok d =>
      match parseConditions cs with
      | Except.error e => Except.error e
      | Except.ok ds => Except.ok (d :: ds)

/-- Source `FlowManager.load_flow_config`: `flow_data = config_dict.get('flow', {})`,
then the two parsing loops, then the `FlowConfig(...)` construction whose
`id`, `name`, `start_task` arguments are required keys. -/
def load_flow_config (config_dict : RawConfig) : Except String FlowConfig := do
  let flow_data := config_dict.flow.getD {}
  let tasks ← parseTasks (flow_data.tasks.getD [])
  let conditions ← parseConditions (flow_data.conditions.getD [])
  let id ← getItem flow_data.id "id"
  let name ← getItem flow_data.name "name"
  let start_task ← getItem flow_data.start_task "start_task"
  pure { id := id
         name := name
         start_task := start_task
         tasks := tasks
         conditions := conditions }

/-! ## Engine state machine (`FlowManager.execute_flow`, lines 129-202) -/

/-- Python dict assignment `m[k] = v` on an insertion-ordered dict:
overwrite in place if the key exists, else append. -/
def insertAssoc (m : List (String × TaskResult)) (k : String) (v : TaskResult) :
    List (String × TaskResult) :=
  match m with
  | [] => [(k, v)]
  | (k1, v1) :: rest =>
    if k1 = k then (k, v) :: rest else (k1, v1) :: insertAssoc rest k v

/-- Python dict lookup `m.get(k)`. -/
def lookupAssoc (m : List (String × TaskResult)) (k : String) : Option TaskResult :=
  match m with
  | [] => none
  | (k1, v1) :: rest => if k1 = k then some v1 else lookupAssoc rest k

/-- The outcome of `task.execute(context)` for an opaque executor: a returned
`TaskResult` or a raised exception. -/
inductive ExecOutcome where
  | ok (r : TaskResult)
  | threw (msg : String)
deriving DecidableEq, Repr

/-- An executor oracle: what `task.execute(context)` does for a given task
configuration and `previous_results` context. -/
def Oracle : Type := TaskConfig → List (String × TaskResult) → ExecOutcome

/-- How the `while` loop of `execute_flow` ends: `normal` for falling out of
the loop (empty / `"end"` current task, missing condition, or a condition
selecting `"end"`), `excepted` for an exception escaping the loop body into
the `except` clause, `fuelOut` when the given fuel bound was insufficient
(the Python loop may genuinely run forever on cyclic conditions). -/
inductive LoopExit where
  | normal (s : FlowExecutionState)
  | excepted (s : FlowExecutionState)
  | fuelOut
deriving DecidableEq, Repr

/-- Lines 158-160: store the task result, append the task to
`completed_tasks` (the `previous_results` context receives the same entry;
callers of `recordResult` update it alongside). -/
def recordResult (st : FlowExecutionState) (c : String) (r : TaskResult) :
    FlowExecutionState :=
  { st with task_results := insertAssoc st.task_results c r
            completed_tasks := st.completed_tasks ++ [c] }

/-- The `while current_task_name and current_task_name != "end"` loop of
`execute_flow` (lines 144-173), fuel-indexed.  Each iteration: set
`current_task`; resolve the task config (missing: mark FAILURE and raise);
create the executor (registry miss raises) and run it (a raised exception
escapes to the `except` clause); record the result; look up the condition
(missing: break); evaluate it; break on the `"end"` sentinel, else loop. -/
def runLoop (registry : List String) (oracle : Oracle) (cfg : FlowConfig) :
    Nat → String → FlowExecutionState → List (String × TaskResult) → LoopExit
  | 0, _, _, _ => LoopExit.fuelOut
  | fuel + 1, current_task_name, st, context =>
    if current_task_name = "" ∨ current_task_name = "end" then
      LoopExit.normal st
    else
      let st1 := { st with current_task := some current_task_name }
      match cfg.get_task_by_name current_task_name with
      | none => LoopExit.excepted { st1 with status := FlowStatus.failure }
      | some task_config =>
        if task_config.task_type ∈ registry then
          match oracle task_config context with
          | ExecOutcome.threw _ => LoopExit.excepted st1
          | ExecOutcome.ok task_result =>
            let st2 := recordResult st1 current_task_name task_result
            let context2 := insertAssoc context current_task_name task_result
            match cfg.get_condition_for_task current_task_name with
            | none => LoopExit.normal st2
            | some condition =>
              let next_task := evaluate_condition condition task_result
              if next_task = "end" then
                LoopExit.normal st2
              else
                runLoop registry oracle cfg fuel next_task st2 context2
        else
          LoopExit.excepted st1

/-- Lines 135-137: mark the record RUNNING and stamp `started_at`. -/
def startState (st0 : FlowExecutionState) : FlowExecutionState :=
  { st0 with status := FlowStatus.running, started_at := some 0 }

/-- Python `all(result.status == TaskStatus.SUCCESS for result in task_results.values())`. -/
def allSuccessful (m : List (String × TaskResult)) : Bool :=
  m.all (fun p => decide (p.2.status = TaskStatus.success))

/-- Python `any(result.status == TaskStatus.FAILURE for result in task_results.values())`. -/
def anyFailed (m : List (String × TaskResult)) : Bool :=
  m.any (fun p => decide (p.2.status = TaskStatus.failure))

/-- Lines 175-193: on normal loop exit, clear `current_task`, stamp
`ended_at`, and aggregate the final status from the recorded results. -/
def finalizeNormal (s : FlowExecutionState) : FlowExecutionState :=
  { s with current_task := none
           ended_at := some 1
           status :=
             if allSuccessful s.task_results then FlowStatus.success
             else if anyFailed s.task_results then FlowStatus.failure
             else FlowStatus.ended }

/-- Lines 195-200: the `except` clause marks the record FAILURE, stamps
`ended_at`, clears `current_task`, and swallows the exception. -/
def finalizeError (s : FlowExecutionState) : FlowExecutionState :=
  { s with status := FlowStatus.failure
           ended_at := some 1
           current_task := none }

/-- What a call of `execute_flow` does: raise the unknown-execution
`ValueError` (`notFound`), never return (`diverges`), or return the final
record. -/
inductive ExecResult where
  | notFound
  | diverges
  | returned (s : FlowExecutionState)
deriving DecidableEq, Repr

/-- Source `FlowManager.execute_flow` (lines 129-202).  The manager's
`active_flows` table is an association list `mgr`; the caller-supplied
`flow_config` is `cfg`.  An absent execution id raises (line 133); otherwise
the record is marked RUNNING and the task loop runs from
`cfg.start_task` with an empty `previous_results` context; a normal loop
exit is finalized by the aggregate status policy and an exception inside the
loop is swallowed into a FAILURE record. -/
def execute_flow (registry : List String) (oracle : Oracle) (fuel : Nat)
    (execution_id : String) (cfg : FlowConfig)
    (mgr : List (String × FlowExecutionState)) : ExecResult :=
  match mgr.lookup execution_id with
  | none => ExecResult.notFound
  | some st0 =>
    match runLoop registry oracle cfg fuel cfg.start_task (startState st0) [] with
    | LoopExit.fuelOut => ExecResult.diverges
    | LoopExit.normal s => ExecResult.returned (finalizeNormal s)
    | LoopExit.excepted s => ExecResult.returned (finalizeError s)

/-- Variant of `runLoop` instrumented with the dispatch trace: the ordered names of the
tasks whose executor was invoked, each tagged `true` when the executor
returned a `TaskResult` and `false` when it threw.  `runLoopTrace` computes
the same exit as `runLoop` (proved below); it exists only to give the
phrase "tasks actually dispatched" a formal referent. -/
def runLoopTrace (registry : List String) (oracle : Oracle) (cfg : FlowConfig) :
    Nat → String → FlowExecutionState → List (String × TaskResult) →
    LoopExit × List (String × Bool)
  | 0, _, _, _ => (LoopExit.fuelOut, [])
  | fuel + 1, current_task_name, st, context =>
    if current_task_name = "" ∨ current_task_name = "end" then
      (LoopExit.normal st, [])
    else
      let st1 := { st with current_task := some current_task_name }
      match cfg.get_task_by_name current_task_name with
      | none => (LoopExit.excepted { st1 with status := FlowStatus.failure }, [])
      | some task_config =>
        if task_config.task_type ∈ registry then
          match oracle task_config context with
          | ExecOutcome.threw _ =>
            (LoopExit.excepted st1, [(current_task_name, false)])
          | ExecOutcome.ok task_result =>
            let st2 := recordResult st1 current_task_name task_result
            let context2 := insertAssoc context current_task_name task_result
            match cfg.get_condition_for_task current_task_name with
            | none => (LoopExit.normal st2, [(current_task_name, true)])
            | some condition =>
              let next_task := evaluate_condition condition task_result
              if next_task = "end" then
                (LoopExit.normal st2, [(current_task_name, true)])
              else
                let rest := runLoopTrace registry oracle cfg fuel next_task st2 context2
                (rest.1, (current_task_name, true) :: rest.2)
        else
          (LoopExit.excepted st1, [])

/-- Pairs `execute_flow` with its dispatch trace. -/
def execute_flow_trace (registry : List String) (oracle : Oracle) (fuel : Nat)
    (execution_id : String) (cfg : FlowConfig)
    (mgr : List (String × FlowExecutionState)) :
    ExecResult × List (String × Bool) :=
  match mgr.lookup execution_id with
  | none => (ExecResult.notFound, [])
  | some st0 =>
    match runLoopTrace registry oracle cfg fuel cfg.start_task (startState st0) [] with
    | (LoopExit.fuelOut, tr) => (ExecResult.diverges, tr)
    | (LoopExit.normal s, tr) => (ExecResult.returned (finalizeNormal s), tr)
    | (LoopExit.excepted s, tr) => (ExecResult.returned (finalizeError s), tr)

/-- The names in a trace whose dispatch returned a result. -/
def okNames (tr : List (String × Bool)) : List String :=
  tr.filterMap (fun p => if p.2 then some p.1 else none)

/-! ## Query surface (`get_flow_status`, `remove_flow`, lines 204-217) -/

/-- Python `self.active_flows.get(execution_id)`. -/
def get_flow_status (mgr : List (String × FlowExecutionState))
    (execution_id : String) : Option FlowExecutionState :=
  mgr.lookup execution_id

/-- Python `del d[k]` on a dict: drop the (unique) binding of `k`. -/
def eraseState (mgr : List (String × FlowExecutionState)) (execution_id : String) :
    List (String × FlowExecutionState) :=
  match mgr with
  | [] => []
  | (k, v) :: rest =>
    if k = execution_id then rest else (k, v) :: eraseState rest execution_id

/-- Source `FlowManager.remove_flow`: membership test, delete and return `True`,
else return `False`; the pair carries the post-call table. -/
def remove_flow (mgr : List (String × FlowExecutionState)) (execution_id : String) :
    Bool × List (String × FlowExecutionState) :=
  if (mgr.lookup execution_id).isSome then
    (true, eraseState mgr execution_id)
  else
    (false, mgr)

/-! ## Helper lemmas -/

/-- Boolean success/failure test for `Except`, standing for whether a Python
call returned or raised. -/
def exceptOk {ε α : Type} : Except ε α → Bool
  | Except.ok _ => true
  | Except.error _ => false

lemma allSuccessful_eq_false {m : List (String × TaskResult)} {p : String × TaskResult}
    (hp : p ∈ m) (hs : p.2.status ≠ TaskStatus.success) : allSuccessful m = false := by
  cases hall : allSuccessful m with
  | false => rfl
  | true =>
    exfalso
    rw [allSuccessful, List.all_eq_true] at hall
    exact hs (by simpa using hall p hp)

lemma anyFailed_eq_true {m : List (String × TaskResult)} {p : String × TaskResult}
    (hp : p ∈ m) (hf : p.2.status = TaskStatus.failure) : anyFailed m = true := by
  rw [anyFailed, List.any_eq_true]
  exact ⟨p, hp, by simpa using hf⟩

lemma lookup_eq_none_of_not_mem (mgr : List (String × FlowExecutionState)) (id : String)
    (h : id ∉ mgr.map Prod.fst) : mgr.lookup id = none := by
  induction mgr with
  | nil => rfl
  | cons p rest ih =>
    obtain ⟨k, v⟩ := p
    simp only [List.map_cons, List.mem_cons, not_or] at h
    have hk : (id == k) = false := beq_eq_false_iff_ne.mpr h.1
    simp [List.lookup, hk, ih h.2]

lemma mem_keys_insertAssoc (m : List (String × TaskResult)) (k x : String) (v : TaskResult) :
    x ∈ (insertAssoc m k v).map Prod.fst ↔ x ∈ m.map Prod.fst ∨ x = k := by
  induction m with
  | nil => simp [insertAssoc]
  | cons p rest ih =>
    obtain ⟨k1, v1⟩ := p
    by_cases h : k1 = k
    · subst h
      simp [insertAssoc]
      tauto
    · simp [insertAssoc, h, ih]
      tauto

lemma runLoopTrace_fst (registry : List String) (oracle : Oracle) (cfg : FlowConfig) :
    ∀ (fuel : Nat) (c : String) (st : FlowExecutionState)
      (ctx : List (String × TaskResult)),
      (runLoopTrace registry oracle cfg fuel c st ctx).1 =
        runLoop registry oracle cfg fuel c st ctx := by
  intro fuel
  induction fuel with
  | zero => intro c st ctx; rfl
  | succ n ih =>
    intro c st ctx
    by_cases hce : c = "" ∨ c = "end"
    · simp [runLoop, runLoopTrace, hce]
    · simp only [runLoop, runLoopTrace, hce, if_false]
      cases hg : cfg.get_task_by_name c with
      | none => rfl
      | some task_config =>
        by_cases hreg : task_config.task_type ∈ registry
        · simp only [hreg, if_true]
          cases ho : oracle task_config ctx with
          | threw msg => rfl
          | ok task_result =>
            cases hcond : cfg.get_condition_for_task c with
            | none => rfl
            | some condition =>
              by_cases hend : evaluate_condition condition task_result = "end"
              · simp [hend]
              · simp [hend, ih]
        · simp [hreg]

lemma runLoopTrace_inv (registry : List String) (oracle : Oracle) (cfg : FlowConfig) :
    ∀ (fuel : Nat) (c : String) (st : FlowExecutionState)
      (ctx : List (String × TaskResult)) (ex : LoopExit)
      (tr : List (String × Bool)) (s : FlowExecutionState),
      runLoopTrace registry oracle cfg fuel c st ctx = (ex, tr) →
      (ex = LoopExit.normal s ∨ ex = LoopExit.excepted s) →
      s.completed_tasks = st.completed_tasks ++ okNames tr ∧
      (∀ x, x ∈ s.task_results.map Prod.fst ↔
            x ∈ st.task_results.map Prod.fst ∨ x ∈ okNames tr) := by
  intro fuel
  induction fuel with
  | zero =>
    intro c st ctx ex tr s hEq hex
    simp only [runLoopTrace, Prod.mk.injEq] at hEq
    obtain ⟨h1, h2⟩ := hEq
    subst h1
    rcases hex with h | h <;> simp at h
  | succ n ih =>
    intro c st ctx ex tr s hEq hex
    by_cases hce : c = "" ∨ c = "end"
    · simp only [runLoopTrace, hce, if_true, Prod.mk.injEq] at hEq
      obtain ⟨h1, h2⟩ := hEq
      subst h1
      subst h2
      rcases hex with h | h
      · obtain rfl : st = s := by injection h
        simp [okNames]
      · simp at h
    · simp only [runLoopTrace, hce, if_false] at hEq
      cases hg : cfg.get_task_by_name c with
      | none =>
        rw [hg] at hEq
        simp only [Prod.mk.injEq] at hEq
        obtain ⟨h1, h2⟩ := hEq
        subst h1
        subst h2
        rcases hex with h | h
        · simp at h
        · obtain rfl : { st with current_task := some c, status := FlowStatus.failure } = s := by
            injection h
          simp [okNames]
      | some task_config =>
        rw [hg] at hEq
        by_cases hreg : task_config.task_type ∈ registry
        · simp only [hreg, if_true] at hEq
          cases ho : oracle task_config ctx with
          | threw msg =>
            rw [ho] at hEq
            simp only [Prod.mk.injEq] at hEq
            obtain ⟨h1, h2⟩ := hEq
            subst h1
            subst h2
            rcases hex with h | h
            · simp at h
            · obtain rfl : { st with current_task := some c } = s := by injection h
              simp [okNames]
          | ok task_result =>
            rw [ho] at hEq
            cases hcond : cfg.get_condition_for_task c with
            | none =>
              rw [hcond] at hEq
              simp only [Prod.mk.injEq] at hEq
              obtain ⟨h1, h2⟩ := hEq
              subst h1
              subst h2
              rcases hex with h | h
              · obtain rfl :
                    recordResult { st with current_task := some c } c task_result = s := by
                  injection h
                constructor
                · simp [recordResult, okNames]
                · intro x
                  simp only [recordResult, okNames, List.filterMap]
                  simpa using mem_keys_insertAssoc st.task_results c x task_result
              · simp at h
            | some condition =>
              rw [hcond] at hEq
              by_cases hend : evaluate_condition condition task_result = "end"
              · simp only [hend, if_true, Prod.mk.injEq] at hEq
                obtain ⟨h1, h2⟩ := hEq
                subst h1
                subst h2
                rcases hex with h | h
                · obtain rfl :
                      recordResult { st with current_task := some c } c task_result = s := by
                    injection h
                  constructor
                  · simp [recordResult, okNames]
                  · intro x
                    simp only [recordResult, okNames, List.filterMap]
                    simpa using mem_keys_insertAssoc st.task_results c x task_result
                · simp at h
              · simp only [hend, if_false] at hEq
                rcases hrec : runLoopTrace registry oracle cfg n
                    (evaluate_condition condition task_result)
                    (recordResult { st with current_task := some c } c task_result)
                    (insertAssoc ctx c task_result) with ⟨ex2, tr2⟩
                rw [hrec] at hEq
                simp only [Prod.mk.injEq] at hEq
                obtain ⟨h1, h2⟩ := hEq
                subst h1
                subst h2
                have hih := ih (evaluate_condition condition task_result)
                  (recordResult { st with current_task := some c } c task_result)
                  (insertAssoc ctx c task_result) ex2 tr2 s hrec hex
                obtain ⟨hc2, hk2⟩ := hih
                constructor
                · rw [hc2]
                  simp [recordResult, okNames]
                · intro x
                  rw [hk2 x]
                  have hkey := mem_keys_insertAssoc st.task_results c x task_result
                  simp only [recordResult] at *
                  simp only [okNames, List.filterMap, if_true] at *
                  constructor
                  · intro hx
                    rcases hx with hx | hx
                    · rcases hkey.mp hx with hy | hy
                      · exact Or.inl hy
                      · exact Or.inr (by simp [okNames, hy])
                    · exact Or.inr (by simp [okNames]; right; simpa [okNames] using hx)
                  · intro hx
                    rcases hx with hx | hx
                    · exact Or.inl (hkey.mpr (Or.inl hx))
                    · simp [okNames] at hx
                      rcases hx with hx | hx
                      · exact Or.inl (hkey.mpr (Or.inr hx))
                      · right; simpa [okNames] using hx
        · simp only [hreg, if_false, Prod.mk.injEq] at hEq
          obtain ⟨h1, h2⟩ := hEq
          subst h1
          subst h2
          rcases hex with h | h
          · simp at h
          · obtain rfl : { st with current_task := some c } = s := by injection h
            simp [okNames]

/-! ## Concrete fixtures

Small flows, oracles and manager tables used to evaluate the engine at
concrete inputs.  `baseRegistry` is the initial `TaskFactory._task_registry`
key set from src/flow_manager.py lines 24-28. -/

def baseRegistry : List String := ["fetch_data", "process_data", "store_data"]

/-- A SUCCESS result as the concrete task bodies build it. -/
def resS (n : String) : TaskResult :=
  { task_name := n, status := TaskStatus.success, message := "ok" }

/-- A FAILURE result carrying error text, as the concrete task bodies build it. -/
def resF (n : String) : TaskResult :=
  { task_name := n, status := TaskStatus.failure, message := "failed", error := some "boom" }

def taskOf (n : String) : TaskConfig :=
  { name := n, description := "d", task_type := "fetch_data" }

/-- A fresh CREATED record as `create_flow_execution` builds it. -/
def stFresh : FlowExecutionState := { flow_id := "e1", flow_name := "F" }

def mgrFresh : List (String × FlowExecutionState) := [("e1", stFresh)]

/-- A record already in the RUNNING state. -/
def stRunning : FlowExecutionState :=
  { flow_id := "e1", flow_name := "F", status := FlowStatus.running }

def mgrRunning : List (String × FlowExecutionState) := [("e1", stRunning)]

/-- Two-task flow whose condition on `task1` has outcome `"failure"` and
routes `target_task_success` to `task2`. -/
def flowC1 : FlowConfig :=
  { id := "f1", name := "F", start_task := "task1"
    tasks := [taskOf "task1", taskOf "task2"]
    conditions := [{ name := "c1", description := "d", source_task := "task1"
                     outcome := "failure", target_task_success := "task2"
                     target_task_failure := "end" }] }

/-- Oracle: `task1` returns a FAILURE result, every other task a SUCCESS. -/
def oracleC1 : Oracle := fun t _ =>
  if t.name = "task1" then ExecOutcome.ok (resF "task1") else ExecOutcome.ok (resS t.name)

/-- The record `execute_flow` produces on `flowC1` / `oracleC1`. -/
def sC1final : FlowExecutionState :=
  { flow_id := "e1", flow_name := "F", current_task := none
    status := FlowStatus.failure
    completed_tasks := ["task1", "task2"]
    task_results := [("task1", resF "task1"), ("task2", resS "task2")]
    started_at := some 0, ended_at := some 1 }

/-- One-task flow whose condition on `task1` routes success to the `"end"`
sentinel. -/
def flowC2 : FlowConfig :=
  { id := "f2", name := "F", start_task := "task1"
    tasks := [taskOf "task1"]
    conditions := [{ name := "c1", description := "d", source_task := "task1"
                     outcome := "success", target_task_success := "end"
                     target_task_failure := "end" }] }

/-- Oracle: every task returns a SUCCESS result. -/
def oracleOk : Oracle := fun t _ => ExecOutcome.ok (resS t.name)

/-- The loop-exit state of `flowC2` / `oracleOk`, before finalization. -/
def sC2loop : FlowExecutionState :=
  { flow_id := "e1", flow_name := "F", current_task := some "task1"
    status := FlowStatus.running
    completed_tasks := ["task1"]
    task_results := [("task1", resS "task1")]
    started_at := some 0, ended_at := none }

/-- One-task flow whose `start_task` names no task in `tasks`. -/
def flowC3 : FlowConfig :=
  { id := "f3", name := "F", start_task := "ghost"
    tasks := [taskOf "task1"], conditions := [] }

/-- The FAILURE record produced when the loop raises before any dispatch. -/
def stAborted : FlowExecutionState :=
  { flow_id := "e1", flow_name := "F", current_task := none
    status := FlowStatus.failure
    completed_tasks := [], task_results := []
    started_at := some 0, ended_at := some 1 }

/-- One-task flow with no conditions. -/
def flowC4 : FlowConfig :=
  { id := "f4", name := "F", start_task := "task1"
    tasks := [taskOf "task1"], conditions := [] }

/-- Oracle: every executor raises. -/
def oracleThrow : Oracle := fun _ _ => ExecOutcome.threw "boom"

/-- The record `execute_flow` produces on `flowC4` / `oracleOk`: one
successful task, loop ended by the missing condition. -/
def sOneOk : FlowExecutionState :=
  { flow_id := "e1", flow_name := "F", current_task := none
    status := FlowStatus.success
    completed_tasks := ["task1"]
    task_results := [("task1", resS "task1")]
    started_at := some 0, ended_at := some 1 }

/-- Raw definition whose single task lacks `task_type` (and whose `flow`
object is otherwise complete). -/
def rawC6 : RawConfig :=
  { flow := some
      { id := some "f", name := some "N", start_task := some "task1"
        tasks := some [{ name := some "Fetch Data", description := some "d" }]
        conditions := some [] } }

/-- What `load_flow_config` produces on `rawC6`: the missing `task_type` is
defaulted from the task name. -/
def cfgC6 : FlowConfig :=
  { id := "f", name := "N", start_task := "task1"
    tasks := [{ name := "Fetch Data", description := "d"
                task_type := "fetch_data", parameters := [] }]
    conditions := [] }

/-- A condition with outcome `"success"`. -/
def condSucc : ConditionConfig :=
  { name := "c", description := "d", source_task := "task1"
    outcome := "success", target_task_success := "task2"
    target_task_failure := "end" }

/-! ## Claims -/

/-- C7: `ConditionEvaluator.evaluate_condition` is the pure function of the
claim: when `outcome == "success"` it returns `target_task_success` exactly
when the result status is SUCCESS and `target_task_failure` otherwise; when
`outcome == "failure"` it returns `target_task_success` exactly when the
status is FAILURE and `target_task_failure` otherwise (the intentionally
outcome-inverted branch); for any other outcome it returns
`target_task_failure` exactly when the status is FAILURE and
`target_task_success` otherwise. -/
theorem c7_condition_evaluator_cases (condition : ConditionConfig) (task_result : TaskResult) :
    (condition.outcome = "success" →
      evaluate_condition condition task_result =
        if task_result.status = TaskStatus.success then condition.target_task_success
        else condition.target_task_failure) ∧
    (condition.outcome = "failure" →
      evaluate_condition condition task_result =
        if task_result.status = TaskStatus.failure then condition.target_task_success
        else condition.target_task_failure) ∧
    (condition.outcome ≠ "success" → condition.outcome ≠ "failure" →
      evaluate_condition condition task_result =
        if task_result.status = TaskStatus.failure then condition.target_task_failure
        else condition.target_task_success) := by
  refine ⟨?_, ?_, ?_⟩
  · intro h
    simp [evaluate_condition, h]
  · intro h
    simp [evaluate_condition, h]
  · intro h1 h2
    simp [evaluate_condition, h1, h2]

/-- C7 witness: the `"success"` branch of `c7_condition_evaluator_cases`
applied to a concrete condition and a SUCCESS result. -/
theorem c7_witness :
    evaluate_condition condSucc (resS "task1") =
      if (resS "task1").status = TaskStatus.success then condSucc.target_task_success
      else condSucc.target_task_failure :=
  (c7_condition_evaluator_cases condSucc (resS "task1")).1 rfl

/-- C9: on an execution id absent from the store, `get_flow_status` returns
not-found (`none`), `remove_flow` returns `false`, and the store is
unchanged (the pair returned by `remove_flow` carries the very same table). -/
theorem c9_unknown_id_queries (mgr : List (String × FlowExecutionState)) (id : String)
    (h : id ∉ mgr.map Prod.fst) :
    get_flow_status mgr id = none ∧ remove_flow mgr id = (false, mgr) := by
  have hl : mgr.lookup id = none := lookup_eq_none_of_not_mem mgr id h
  constructor
  · simpa [get_flow_status] using hl
  · simp [remove_flow, hl]

/-- C9 witness: `c9_unknown_id_queries` on the one-record table `mgrFresh`
and the absent id `"missing"`. -/
theorem c9_witness :
    get_flow_status mgrFresh "missing" = none ∧
    remove_flow mgrFresh "missing" = (false, mgrFresh) :=
  c9_unknown_id_queries mgrFresh "missing" (by decide)

/-- C5 counterexample: a record already in the RUNNING state is not rejected:
`execute_flow` proceeds and dispatches `task1` (it ends up in
`completed_tasks`), so no `AlreadyRunning` failure exists. -/
theorem c5_counterexample :
    mgrRunning.lookup "e1" = some stRunning ∧
    stRunning.status = FlowStatus.running ∧
    execute_flow baseRegistry oracleOk 10 "e1" flowC4 mgrRunning =
      ExecResult.returned sOneOk ∧
    sOneOk.completed_tasks = ["task1"] := by
  refine ⟨rfl, rfl, by decide, rfl⟩

/-- C5 amended: `execute_flow` raises the unknown-execution error exactly
when the id is absent from the store; there is no `AlreadyRunning` check, so
a call on a record that is already RUNNING proceeds to dispatch tasks like
any other call. -/
theorem c5_not_found_iff_absent (registry : List String) (oracle : Oracle) (fuel : Nat)
    (execution_id : String) (cfg : FlowConfig)
    (mgr : List (String × FlowExecutionState)) :
    execute_flow registry oracle fuel execution_id cfg mgr = ExecResult.notFound ↔
      mgr.lookup execution_id = none := by
  unfold execute_flow
  cases hm : mgr.lookup execution_id with
  | none => simp
  | some st0 =>
    simp only [iff_false, Option.some.injEq]
    cases hr : runLoop registry oracle cfg fuel cfg.start_task (startState st0) [] <;>
      simp [hr]

/-- C1 counterexample: on `flowC1` the first dispatched task (`task1`)
produces a FAILURE TaskResult, yet its condition (outcome `"failure"`,
`target_task_success = "task2"`) routes onward and `task2` IS dispatched
afterwards: it appears in `completed_tasks` and `task_results`, refuting
"no further task is dispatched after a FAILURE". -/
theorem c1_counterexample :
    execute_flow baseRegistry oracleC1 10 "e1" flowC1 mgrFresh =
      ExecResult.returned sC1final ∧
    lookupAssoc sC1final.task_results "task1" = some (resF "task1") ∧
    (resF "task1").status = TaskStatus.failure ∧
    sC1final.completed_tasks = ["task1", "task2"] := by
  refine ⟨by decide, rfl, rfl, rfl⟩

/-- C1 amended: tasks after a failing one can still be dispatched (the
condition of the failing task decides), but the final-status half survives
in recorded form: whenever `execute_flow` returns a record whose
`task_results` contain a FAILURE entry, the record's final status is
FAILURE. -/
theorem c1_failure_result_forces_failure (registry : List String) (oracle : Oracle)
    (fuel : Nat) (execution_id : String) (cfg : FlowConfig)
    (mgr : List (String × FlowExecutionState)) (s : FlowExecutionState)
    (h : execute_flow registry oracle fuel execution_id cfg mgr = ExecResult.returned s)
    (hf : ∃ p ∈ s.task_results, p.2.status = TaskStatus.failure) :
    s.status = FlowStatus.failure := by
  unfold execute_flow at h
  cases hm : mgr.lookup execution_id with
  | none => simp only [hm] at h; simp at h
  | some st0 =>
    simp only [hm] at h
    cases hr : runLoop registry oracle cfg fuel cfg.start_task (startState st0) [] with
    | fuelOut => simp only [hr] at h; simp at h
    | normal s1 =>
      simp only [hr, ExecResult.returned.injEq] at h
      subst h
      obtain ⟨p, hp, hpf⟩ := hf
      simp only [finalizeNormal] at hp
      have hall : allSuccessful s1.task_results = false :=
        allSuccessful_eq_false hp (by simp [hpf])
      have hany : anyFailed s1.task_results = true := anyFailed_eq_true hp hpf
      simp [finalizeNormal, hall, hany]
    | excepted s1 =>
      simp only [hr, ExecResult.returned.injEq] at h
      subst h
      simp [finalizeError]

/-- C1 witness: `c1_failure_result_forces_failure` applied to the concrete
run of `flowC1` under `oracleC1`, whose record contains the FAILURE result
of `task1`. -/
theorem c1_witness : sC1final.status = FlowStatus.failure :=
  c1_failure_result_forces_failure baseRegistry oracleC1 10 "e1" flowC1 mgrFresh
    sC1final (by decide) ⟨("task1", resF "task1"), by decide, by decide⟩

/-- C10: whenever `execute_flow` returns a record (normally or through the
swallowed-exception path), that record's status is SUCCESS, FAILURE or ENDED
(never CREATED or RUNNING), its `current_task` is cleared, and `ended_at` is
set. -/
theorem c10_terminal_well_formed (registry : List String) (oracle : Oracle)
    (fuel : Nat) (execution_id : String) (cfg : FlowConfig)
    (mgr : List (String × FlowExecutionState)) (s : FlowExecutionState)
    (h : execute_flow registry oracle fuel execution_id cfg mgr = ExecResult.returned s) :
    (s.status = FlowStatus.success ∨ s.status = FlowStatus.failure ∨
      s.status = FlowStatus.ended) ∧
    s.current_task = none ∧ s.ended_at.isSome = true := by
  unfold execute_flow at h
  cases hm : mgr.lookup execution_id with
  | none => simp only [hm] at h; simp at h
  | some st0 =>
    simp only [hm] at h
    cases hr : runLoop registry oracle cfg fuel cfg.start_task (startState st0) [] with
    | fuelOut => simp only [hr] at h; simp at h
    | normal s1 =>
      simp only [hr, ExecResult.returned.injEq] at h
      subst h
      refine ⟨?_, rfl, rfl⟩
      simp only [finalizeNormal]
      by_cases h1 : allSuccessful s1.task_results
      · simp [h1]
      · by_cases h2 : anyFailed s1.task_results
        · simp [h1, h2]
        · simp [h1, h2]
    | excepted s1 =>
      simp only [hr, ExecResult.returned.injEq] at h
      subst h
      exact ⟨Or.inr (Or.inl rfl), rfl, rfl⟩

/-- C10 witness: `c10_terminal_well_formed` on the concrete run of `flowC4`
under `oracleOk`. -/
theorem c10_witness :
    (sOneOk.status = FlowStatus.success ∨ sOneOk.status = FlowStatus.failure ∨
      sOneOk.status = FlowStatus.ended) ∧
    sOneOk.current_task = none ∧ sOneOk.ended_at.isSome = true :=
  c10_terminal_well_formed baseRegistry oracleOk 10 "e1" flowC4 mgrFresh sOneOk (by decide)

/-- C3 counterexample: on `flowC3` the start task `"ghost"` resolves to no
task (`UnknownTask`), yet `execute_flow` does NOT raise: it returns the
record normally, merely marked FAILURE — the generic `except` clause at
lines 195-200 absorbs the error.  The claim's "raised to the caller ...
never silently absorbed" is false. -/
theorem c3_counterexample :
    flowC3.get_task_by_name flowC3.start_task = none ∧
    execute_flow baseRegistry oracleOk 10 "e1" flowC3 mgrFresh =
      ExecResult.returned stAborted ∧
    stAborted.status = FlowStatus.failure := by
  refine ⟨rfl, by decide, rfl⟩

/-- C3 amended: every engine error inside the task loop — `UnknownTask`,
`UnknownTaskType`, or an executor's own raised fault — marks the record
FAILURE but is absorbed by the catch-all handler: `execute_flow` returns
the FAILURE record to its caller instead of raising; only the
unknown-execution-id error (raised before the loop) reaches the caller. -/
theorem c3_loop_errors_absorbed (registry : List String) (oracle : Oracle)
    (fuel : Nat) (execution_id : String) (cfg : FlowConfig)
    (mgr : List (String × FlowExecutionState)) (st0 s : FlowExecutionState)
    (hm : mgr.lookup execution_id = some st0)
    (hr : runLoop registry oracle cfg fuel cfg.start_task (startState st0) [] =
      LoopExit.excepted s) :
    execute_flow registry oracle fuel execution_id cfg mgr =
      ExecResult.returned (finalizeError s) ∧
    (finalizeError s).status = FlowStatus.failure := by
  constructor
  · unfold execute_flow
    simp [hm, hr]
  · rfl

/-- C3 witness: `c3_loop_errors_absorbed` on the concrete `flowC3` run whose
start task is unknown. -/
theorem c3_witness :
    execute_flow baseRegistry oracleOk 10 "e1" flowC3 mgrFresh =
      ExecResult.returned (finalizeError
        { stFresh with status := FlowStatus.failure, started_at := some 0
                       current_task := some "ghost" }) ∧
    (finalizeError
        { stFresh with status := FlowStatus.failure, started_at := some 0
                       current_task := some "ghost" }).status = FlowStatus.failure :=
  c3_loop_errors_absorbed baseRegistry oracleOk 10 "e1" flowC3 mgrFresh stFresh
    { stFresh with status := FlowStatus.failure, started_at := some 0
                   current_task := some "ghost" }
    (by decide) (by decide)

/-- C2 counterexample: on `flowC2` the single task succeeds and its condition
selects the `"end"` sentinel, so the loop terminates via the sentinel with
no FAILURE anywhere — yet the final status is SUCCESS, not ENDED: the
aggregate policy of lines 179-193 returns SUCCESS whenever every recorded
result is SUCCESS, regardless of how the loop ended. -/
theorem c2_counterexample :
    evaluate_condition
        { name := "c1", description := "d", source_task := "task1"
          outcome := "success", target_task_success := "end"
          target_task_failure := "end" } (resS "task1") = "end" ∧
    anyFailed (finalizeNormal sC2loop).task_results = false ∧
    execute_flow baseRegistry oracleOk 10 "e1" flowC2 mgrFresh =
      ExecResult.returned (finalizeNormal sC2loop) ∧
    (finalizeNormal sC2loop).status = FlowStatus.success ∧
    (finalizeNormal sC2loop).status ≠ FlowStatus.ended := by
  refine ⟨rfl, by decide, by decide, by decide, by decide⟩

/-- C2 amended: when the task loop exits normally (termination sentinel,
empty next-task name, or missing condition), the final status is ENDED
exactly when the recorded results are neither all-SUCCESS nor contain a
FAILURE (e.g. some result is SKIPPED); a sentinel termination with every
recorded result SUCCESS — or with no results at all — yields SUCCESS. -/
theorem c2_ended_iff_mixed_results (registry : List String) (oracle : Oracle)
    (fuel : Nat) (execution_id : String) (cfg : FlowConfig)
    (mgr : List (String × FlowExecutionState)) (st0 s : FlowExecutionState)
    (hm : mgr.lookup execution_id = some st0)
    (hr : runLoop registry oracle cfg fuel cfg.start_task (startState st0) [] =
      LoopExit.normal s) :
    execute_flow registry oracle fuel execution_id cfg mgr =
      ExecResult.returned (finalizeNormal s) ∧
    ((finalizeNormal s).status = FlowStatus.ended ↔
      allSuccessful s.task_results = false ∧ anyFailed s.task_results = false) := by
  constructor
  · unfold execute_flow
    simp [hm, hr]
  · simp only [finalizeNormal]
    by_cases h1 : allSuccessful s.task_results
    · simp [h1]
    · by_cases h2 : anyFailed s.task_results
      · simp [h1, h2]
      · simp [h1, h2]

/-- C2 witness: `c2_ended_iff_mixed_results` on the concrete `flowC2` run
(all results SUCCESS: the equivalence makes ENDED false there). -/
theorem c2_witness :
    execute_flow baseRegistry oracleOk 10 "e1" flowC2 mgrFresh =
      ExecResult.returned (finalizeNormal sC2loop) ∧
    ((finalizeNormal sC2loop).status = FlowStatus.ended ↔
      allSuccessful sC2loop.task_results = false ∧
      anyFailed sC2loop.task_results = false) :=
  c2_ended_iff_mixed_results baseRegistry oracleOk 10 "e1" flowC2 mgrFresh stFresh
    sC2loop (by decide) (by decide)

/-- C4 counterexample: the executor of `task1` raises (`oracleThrow`), and
the engine does NOT convert the fault into a FAILURE TaskResult: the
returned record has no entry for `task1` in `task_results` and an empty
`completed_tasks`; the whole execution is aborted to FAILURE by the
catch-all handler instead. -/
theorem c4_counterexample :
    oracleThrow (taskOf "task1") [] = ExecOutcome.threw "boom" ∧
    execute_flow baseRegistry oracleThrow 10 "e1" flowC4 mgrFresh =
      ExecResult.returned stAborted ∧
    stAborted.task_results = [] ∧
    stAborted.completed_tasks = [] := by
  refine ⟨rfl, by decide, rfl, rfl⟩

/-- C8 counterexample: under `oracleThrow` the engine dispatches `task1`
(its executor is invoked — the dispatch trace records it), yet the returned
record's `completed_tasks` is empty and `task_results` has no key for it:
a dispatched task missing from the history, refuting the claim. -/
theorem c8_counterexample :
    execute_flow_trace baseRegistry oracleThrow 10 "e1" flowC4 mgrFresh =
      (ExecResult.returned stAborted, [("task1", false)]) ∧
    stAborted.completed_tasks = [] ∧
    stAborted.task_results = [] := by
  refine ⟨by decide, rfl, rfl⟩

/-- C8 amended: for every execution started on a fresh record,
`completed_tasks` is exactly the ordered sequence of dispatched tasks WHOSE
EXECUTOR RETURNED a TaskResult (a dispatch that throws is dropped from the
history), and the key set of `task_results` equals the set of entries of
`completed_tasks`. -/
theorem c8_history_correspondence (registry : List String) (oracle : Oracle)
    (fuel : Nat) (execution_id : String) (cfg : FlowConfig)
    (mgr : List (String × FlowExecutionState)) (st0 s : FlowExecutionState)
    (tr : List (String × Bool))
    (hm : mgr.lookup execution_id = some st0)
    (hc0 : st0.completed_tasks = []) (hr0 : st0.task_results = [])
    (h : execute_flow_trace registry oracle fuel execution_id cfg mgr =
      (ExecResult.returned s, tr)) :
    s.completed_tasks = okNames tr ∧
    (∀ x, x ∈ s.task_results.map Prod.fst ↔ x ∈ s.completed_tasks) := by
  unfold execute_flow_trace at h
  simp only [hm] at h
  rcases hrt : runLoopTrace registry oracle cfg fuel cfg.start_task (startState st0) []
    with ⟨ex, tr2⟩
  rw [hrt] at h
  cases ex with
  | fuelOut => simp at h
  | normal s1 =>
    simp only [Prod.mk.injEq, ExecResult.returned.injEq] at h
    obtain ⟨h1, h2⟩ := h
    subst h1
    subst h2
    have hinv := runLoopTrace_inv registry oracle cfg fuel cfg.start_task (startState st0)
      [] (LoopExit.normal s1) tr2 s1 hrt (Or.inl rfl)
    obtain ⟨hcomp, hkeys⟩ := hinv
    have hc : s1.completed_tasks = okNames tr2 := by
      simpa [startState, hc0] using hcomp
    constructor
    · simpa [finalizeNormal] using hc
    · intro x
      have := hkeys x
      simp only [startState, hr0, List.map_nil, List.not_mem_nil, false_or] at this
      simpa [finalizeNormal, hc] using this
  | excepted s1 =>
    simp only [Prod.mk.injEq, ExecResult.returned.injEq] at h
    obtain ⟨h1, h2⟩ := h
    subst h1
    subst h2
    have hinv := runLoopTrace_inv registry oracle cfg fuel cfg.start_task (startState st0)
      [] (LoopExit.excepted s1) tr2 s1 hrt (Or.inr rfl)
    obtain ⟨hcomp, hkeys⟩ := hinv
    have hc : s1.completed_tasks = okNames tr2 := by
      simpa [startState, hc0] using hcomp
    constructor
    · simpa [finalizeError] using hc
    · intro x
      have := hkeys x
      simp only [startState, hr0, List.map_nil, List.not_mem_nil, false_or] at this
      simpa [finalizeError, hc] using this

/-- C8 witness: `c8_history_correspondence` on the concrete `flowC1` run
(both tasks dispatched and returning). -/
theorem c8_witness :
    sC1final.completed_tasks = okNames [("task1", true), ("task2", true)] :=
  (c8_history_correspondence baseRegistry oracleC1 10 "e1" flowC1 mgrFresh stFresh
    sC1final [("task1", true), ("task2", true)] (by decide) rfl rfl (by decide)).1

lemma exceptOk_bind {ε α β : Type} (e : Except ε α) (f : α → Except ε β) :
    exceptOk (e >>= f) = true ↔ ∃ a, e = Except.ok a ∧ exceptOk (f a) = true := by
  cases e <;> simp [bind, Except.bind, exceptOk]

lemma exists_ok_iff_exceptOk {ε α : Type} (e : Except ε α) :
    (∃ a, e = Except.ok a) ↔ exceptOk e = true := by
  cases e <;> simp [exceptOk]

lemma getItem_eq_ok {α : Type} (v : Option α) (key : String) (a : α) :
    getItem v key = Except.ok a ↔ v = some a := by
  cases v <;> simp [getItem]

lemma exceptOk_getItem {α : Type} (v : Option α) (key : String) :
    exceptOk (getItem v key) = true ↔ v.isSome = true := by
  cases v <;> simp [getItem, exceptOk]

lemma parseTask_ok (t : RawTask) :
    exceptOk (parseTask t) = true ↔
      t.name.isSome = true ∧ t.description.isSome = true := by
  cases h1 : t.name <;> cases h2 : t.description <;>
    simp [parseTask, getItem, h1, h2, exceptOk, bind, Except.bind, pure, Except.pure]

lemma parseTasks_ok (ts : List RawTask) :
    exceptOk (parseTasks ts) = true ↔
      ∀ t ∈ ts, t.name.isSome = true ∧ t.description.isSome = true := by
  induction ts with
  | nil => simp [parseTasks, exceptOk]
  | cons t ts ih =>
    simp only [parseTasks]
    cases hp : parseTask t with
    | error e =>
      simp only [exceptOk]
      constructor
      · intro h
        simp at h
      · intro h
        exfalso
        have := (parseTask_ok t).mpr (h t (List.mem_cons_self t ts))
        rw [hp] at this
        simp [exceptOk] at this
    | ok c =>
      have hT := (parseTask_ok t).mp (by rw [hp]; rfl)
      cases hq : parseTasks ts with
      | error e =>
        simp only [exceptOk]
        constructor
        · intro h
          simp at h
        · intro h
          exfalso
          have := ih.mpr (fun x hx => h x (List.mem_cons_of_mem t hx))
          rw [hq] at this
          simp [exceptOk] at this
      | ok cs =>
        simp only [exceptOk]
        constructor
        · intro _ x hx
          rcases List.mem_cons.mp hx with rfl | hx2
          · exact hT
          · exact (ih.mp (by rw [hq]; rfl)) x hx2
        · intro _
          trivial

lemma parseCondition_ok (c : RawCondition) :
    exceptOk (parseCondition c) = true ↔
      c.name.isSome = true ∧ c.description.isSome = true ∧
      c.source_task.isSome = true ∧ c.outcome.isSome = true ∧
      c.target_task_success.isSome = true ∧ c.target_task_failure.isSome = true := by
  cases h1 : c.name <;> cases h2 : c.description <;> cases h3 : c.source_task <;>
    cases h4 : c.outcome <;> cases h5 : c.target_task_success <;>
    cases h6 : c.target_task_failure <;>
    simp [parseCondition, getItem, h1, h2, h3, h4, h5, h6, exceptOk, bind,
      Except.bind, pure, Except.pure]

lemma parseConditions_ok (cs : List RawCondition) :
    exceptOk (parseConditions cs) = true ↔
      ∀ c ∈ cs, c.name.isSome = true ∧ c.description.isSome = true ∧
        c.source_task.isSome = true ∧ c.outcome.isSome = true ∧
        c.target_task_success.isSome = true ∧ c.target_task_failure.isSome = true := by
  induction cs with
  | nil => simp [parseConditions, exceptOk]
  | cons c cs ih =>
    simp only [parseConditions]
    cases hp : parseCondition c with
    | error e =>
      simp only [exceptOk]
      constructor
      · intro h
        simp at h
      · intro h
        exfalso
        have := (parseCondition_ok c).mpr (h c (List.mem_cons_self c cs))
        rw [hp] at this
        simp [exceptOk] at this
    | ok d =>
      have hT := (parseCondition_ok c).mp (by rw [hp]; rfl)
      cases hq : parseConditions cs with
      | error e =>
        simp only [exceptOk]
        constructor
        · intro h
          simp at h
        · intro h
          exfalso
          have := ih.mpr (fun x hx => h x (List.mem_cons_of_mem c hx))
          rw [hq] at this
          simp [exceptOk] at this
      | ok ds =>
        simp only [exceptOk]
        constructor
        · intro _ x hx
          rcases List.mem_cons.mp hx with rfl | hx2
          · exact hT
          · exact (ih.mp (by rw [hq]; rfl)) x hx2
        · intro _
          trivial

/-- C6 counterexample: a definition whose single task lacks `task_type` is
NOT rejected — `load_flow_config` succeeds, silently defaulting `task_type`
to the lower-cased, underscore-joined task name (`"Fetch Data"` becomes
`"fetch_data"`), refuting the claimed if-and-only-if. -/
theorem c6_counterexample :
    (RawTask.task_type { name := some "Fetch Data", description := some "d" }) = none ∧
    load_flow_config rawC6 = Except.ok cfgC6 ∧
    (cfgC6.tasks.map TaskConfig.task_type) = ["fetch_data"] := by
  refine ⟨rfl, by decide, rfl⟩

/-- C6 amended: `load_flow_config` fails (raises `KeyError`) if and only if
the flow object lacks `id`, `name`, or `start_task`, or some task lacks
`name` or `description`, or some condition lacks `name`, `description`,
`source_task`, `outcome`, `target_task_success`, or `target_task_failure`.
In particular an absent `tasks` key defaults to the empty list, a task
without `task_type` gets a default derived from its name, and a task
missing the `description` key is rejected. -/
theorem c6_load_ok_iff (config_dict : RawConfig) :
    exceptOk (load_flow_config config_dict) = true ↔
      ((∀ t ∈ ((config_dict.flow.getD {}).tasks.getD []),
          t.name.isSome = true ∧ t.description.isSome = true) ∧
       (∀ c ∈ ((config_dict.flow.getD {}).conditions.getD []),
          c.name.isSome = true ∧ c.description.isSome = true ∧
          c.source_task.isSome = true ∧ c.outcome.isSome = true ∧
          c.target_task_success.isSome = true ∧ c.target_task_failure.isSome = true) ∧
       (config_dict.flow.getD {}).id.isSome = true ∧
       (config_dict.flow.getD {}).name.isSome = true ∧
       (config_dict.flow.getD {}).start_task.isSome = true) := by
  constructor
  · intro h
    simp only [load_flow_config] at h
    rw [exceptOk_bind] at h
    obtain ⟨tasks, hT, h⟩ := h
    rw [exceptOk_bind] at h
    obtain ⟨conditions, hC, h⟩ := h
    rw [exceptOk_bind] at h
    obtain ⟨idv, hid, h⟩ := h
    rw [exceptOk_bind] at h
    obtain ⟨namev, hname, h⟩ := h
    rw [exceptOk_bind] at h
    obtain ⟨startv, hstart, _⟩ := h
    refine ⟨?_, ?_, ?_, ?_, ?_⟩
    · exact (parseTasks_ok _).mp ((exists_ok_iff_exceptOk _).mp ⟨tasks, hT⟩)
    · exact (parseConditions_ok _).mp ((exists_ok_iff_exceptOk _).mp ⟨conditions, hC⟩)
    · simp [(getItem_eq_ok _ _ _).mp hid]
    · simp [(getItem_eq_ok _ _ _).mp hname]
    · simp [(getItem_eq_ok _ _ _).mp hstart]
  · intro ⟨h1, h2, h3, h4, h5⟩
    simp only [load_flow_config]
    rw [exceptOk_bind]
    obtain ⟨tasks, hT⟩ := (exists_ok_iff_exceptOk _).mpr ((parseTasks_ok _).mpr h1)
    refine ⟨tasks, hT, ?_⟩
    rw [exceptOk_bind]
    obtain ⟨conditions, hC⟩ :=
      (exists_ok_iff_exceptOk _).mpr ((parseConditions_ok _).mpr h2)
    refine ⟨conditions, hC, ?_⟩
    rw [exceptOk_bind]
    obtain ⟨idv, hid⟩ := Option.isSome_iff_exists.mp h3
    refine ⟨idv, (getItem_eq_ok _ _ _).mpr hid, ?_⟩
    rw [exceptOk_bind]
    obtain ⟨namev, hname⟩ := Option.isSome_iff_exists.mp h4
    refine ⟨namev, (getItem_eq_ok _ _ _).mpr hname, ?_⟩
    rw [exceptOk_bind]
    obtain ⟨startv, hstart⟩ := Option.isSome_iff_exists.mp h5
    exact ⟨startv, (getItem_eq_ok _ _ _).mpr hstart, rfl⟩

/-- Consistency of the instrumented engine: `execute_flow_trace` computes
the same result as `execute_flow`; the trace is pure bookkeeping. -/
lemma execute_flow_trace_fst (registry : List String) (oracle : Oracle) (fuel : Nat)
    (execution_id : String) (cfg : FlowConfig)
    (mgr : List (String × FlowExecutionState)) :
    (execute_flow_trace registry oracle fuel execution_id cfg mgr).1 =
      execute_flow registry oracle fuel execution_id cfg mgr := by
  unfold execute_flow_trace execute_flow
  cases hm : mgr.lookup execution_id with
  | none => simp
  | some st0 =>
    simp only
    rcases hrt : runLoopTrace registry oracle cfg fuel cfg.start_task (startState st0) []
      with ⟨ex, tr⟩
    have hfst := runLoopTrace_fst registry oracle cfg fuel cfg.start_task (startState st0) []
    rw [hrt] at hfst
    rw [← hfst]
    cases ex <;> rfl

lemma lookupAssoc_insertAssoc_self (m : List (String × TaskResult)) (k : String)
    (v : TaskResult) : lookupAssoc (insertAssoc m k v) k = some v := by
  induction m with
  | nil => simp [insertAssoc, lookupAssoc]
  | cons p rest ih =>
    obtain ⟨k1, v1⟩ := p
    by_cases h : k1 = k
    · subst h
      simp [insertAssoc, lookupAssoc]
    · simp [insertAssoc, lookupAssoc, h, ih]

lemma runLoopTrace_false_excepted (registry : List String) (oracle : Oracle)
    (cfg : FlowConfig) :
    ∀ (fuel : Nat) (c : String) (st : FlowExecutionState)
      (ctx : List (String × TaskResult)) (ex : LoopExit)
      (tr : List (String × Bool)) (x : String),
      runLoopTrace registry oracle cfg fuel c st ctx = (ex, tr) →
      (x, false) ∈ tr →
      ∃ s, ex = LoopExit.excepted s := by
  intro fuel
  induction fuel with
  | zero =>
    intro c st ctx ex tr x hEq hx
    simp only [runLoopTrace, Prod.mk.injEq] at hEq
    obtain ⟨h1, h2⟩ := hEq
    subst h2
    simp at hx
  | succ n ih =>
    intro c st ctx ex tr x hEq hx
    by_cases hce : c = "" ∨ c = "end"
    · simp only [runLoopTrace, hce, if_true, Prod.mk.injEq] at hEq
      obtain ⟨h1, h2⟩ := hEq
      subst h2
      simp at hx
    · simp only [runLoopTrace, hce, if_false] at hEq
      cases hg : cfg.get_task_by_name c with
      | none =>
        rw [hg] at hEq
        simp only [Prod.mk.injEq] at hEq
        obtain ⟨h1, h2⟩ := hEq
        subst h2
        simp at hx
      | some task_config =>
        rw [hg] at hEq
        by_cases hreg : task_config.task_type ∈ registry
        · simp only [hreg, if_true] at hEq
          cases ho : oracle task_config ctx with
          | threw msg =>
            rw [ho] at hEq
            simp only [Prod.mk.injEq] at hEq
            obtain ⟨h1, h2⟩ := hEq
            exact ⟨{ st with current_task := some c }, h1.symm⟩
          | ok task_result =>
            rw [ho] at hEq
            cases hcond : cfg.get_condition_for_task c with
            | none =>
              rw [hcond] at hEq
              simp only [Prod.mk.injEq] at hEq
              obtain ⟨h1, h2⟩ := hEq
              subst h2
              simp at hx
            | some condition =>
              rw [hcond] at hEq
              by_cases hend : evaluate_condition condition task_result = "end"
              · simp only [hend, if_true, Prod.mk.injEq] at hEq
                obtain ⟨h1, h2⟩ := hEq
                subst h2
                simp at hx
              · simp only [hend, if_false] at hEq
                rcases hrec : runLoopTrace registry oracle cfg n
                    (evaluate_condition condition task_result)
                    (recordResult { st with current_task := some c } c task_result)
                    (insertAssoc ctx c task_result) with ⟨ex2, tr2⟩
                rw [hrec] at hEq
                simp only [Prod.mk.injEq] at hEq
                obtain ⟨h1, h2⟩ := hEq
                subst h1
                subst h2
                simp only [List.mem_cons, Prod.mk.injEq] at hx
                rcases hx with ⟨hx1, hx2⟩ | hx
                · simp at hx2
                · exact ih _ _ _ ex2 tr2 x hrec hx
        · simp only [hreg, if_false, Prod.mk.injEq] at hEq
          obtain ⟨h1, h2⟩ := hEq
          subst h2
          simp at hx

/-- C4 amended: a dispatched executor that RETURNS a TaskResult — FAILURE
included — has that exact result (error text intact) stored under the task's
name and the task appended to `completed_tasks`, and the loop then continues
through the condition lookup exactly as it would for a SUCCESS result: a
returned fault never takes the abort path.  An executor that THROWS, at any
position of any execution, aborts the task loop through the catch-all
handler: the execution returns marked FAILURE, its `completed_tasks` are
exactly the returning dispatches and `task_results` is keyed by exactly
those, so the faulting dispatch contributes no TaskResult and no
`completed_tasks` entry.  The first half is stated at an arbitrary loop
position (any current task `c`, any accumulated state `st`, any context
`ctx` — every dispatch of every run is such a position); the second over
whole executions started on a fresh record. -/
theorem c4_executor_fault_handling :
    (∀ (registry : List String) (oracle : Oracle) (cfg : FlowConfig) (fuel : Nat)
      (c : String) (st : FlowExecutionState) (ctx : List (String × TaskResult))
      (task_config : TaskConfig) (r : TaskResult),
      c ≠ "" → c ≠ "end" →
      cfg.get_task_by_name c = some task_config →
      task_config.task_type ∈ registry →
      oracle task_config ctx = ExecOutcome.ok r →
      lookupAssoc (recordResult { st with current_task := some c } c r).task_results c =
        some r ∧
      (recordResult { st with current_task := some c } c r).completed_tasks =
        st.completed_tasks ++ [c] ∧
      runLoop registry oracle cfg (fuel + 1) c st ctx =
        (match cfg.get_condition_for_task c with
         | none => LoopExit.normal (recordResult { st with current_task := some c } c r)
         | some condition =>
           if evaluate_condition condition r = "end" then
             LoopExit.normal (recordResult { st with current_task := some c } c r)
           else
             runLoop registry oracle cfg fuel (evaluate_condition condition r)
               (recordResult { st with current_task := some c } c r)
               (insertAssoc ctx c r))) ∧
    (∀ (registry : List String) (oracle : Oracle) (fuel : Nat) (execution_id : String)
      (cfg : FlowConfig) (mgr : List (String × FlowExecutionState))
      (st0 s : FlowExecutionState) (tr : List (String × Bool)) (c : String),
      mgr.lookup execution_id = some st0 →
      st0.completed_tasks = [] → st0.task_results = [] →
      execute_flow_trace registry oracle fuel execution_id cfg mgr =
        (ExecResult.returned s, tr) →
      (c, false) ∈ tr →
      s.status = FlowStatus.failure ∧
      s.completed_tasks = okNames tr ∧
      (∀ y, y ∈ s.task_results.map Prod.fst ↔ y ∈ okNames tr)) := by
  constructor
  · intro registry oracle cfg fuel c st ctx task_config r hne hnend htask hreg ho
    have hce : ¬(c = "" ∨ c = "end") := by simp [hne, hnend]
    refine ⟨?_, ?_, ?_⟩
    · simp [recordResult, lookupAssoc_insertAssoc_self]
    · simp [recordResult]
    · simp only [runLoop, hce, if_false, htask, hreg, if_true, ho]
  · intro registry oracle fuel execution_id cfg mgr st0 s tr c hm hc0 hr0 h hx
    unfold execute_flow_trace at h
    simp only [hm] at h
    rcases hrt : runLoopTrace registry oracle cfg fuel cfg.start_task (startState st0) []
      with ⟨ex, tr2⟩
    rw [hrt] at h
    cases ex with
    | fuelOut => simp at h
    | normal s1 =>
      simp only [Prod.mk.injEq, ExecResult.returned.injEq] at h
      obtain ⟨h1, h2⟩ := h
      subst h1
      subst h2
      obtain ⟨s2, hex⟩ := runLoopTrace_false_excepted registry oracle cfg fuel
        cfg.start_task (startState st0) [] (LoopExit.normal s1) tr2 c hrt hx
      simp at hex
    | excepted s1 =>
      simp only [Prod.mk.injEq, ExecResult.returned.injEq] at h
      obtain ⟨h1, h2⟩ := h
      subst h1
      subst h2
      have hinv := runLoopTrace_inv registry oracle cfg fuel cfg.start_task (startState st0)
        [] (LoopExit.excepted s1) tr2 s1 hrt (Or.inr rfl)
      obtain ⟨hcomp, hkeys⟩ := hinv
      have hc : s1.completed_tasks = okNames tr2 := by
        simpa [startState, hc0] using hcomp
      refine ⟨rfl, ?_, ?_⟩
      · simpa [finalizeError] using hc
      · intro y
        have := hkeys y
        simp only [startState, hr0, List.map_nil, List.not_mem_nil, false_or] at this
        simpa [finalizeError] using this

/-- C4 witness: the returning half of `c4_executor_fault_handling` at the
`task1` dispatch of `flowC1` under `oracleC1` (a FAILURE result, recorded
verbatim), and the throwing half on the `flowC4` / `oracleThrow` execution
(final record FAILURE). -/
theorem c4_witness :
    lookupAssoc (recordResult { startState stFresh with current_task := some "task1" }
        "task1" (resF "task1")).task_results "task1" = some (resF "task1") ∧
    stAborted.status = FlowStatus.failure := by
  constructor
  · exact (c4_executor_fault_handling.1 baseRegistry oracleC1 flowC1 9 "task1"
      (startState stFresh) [] (taskOf "task1") (resF "task1") (by decide) (by decide)
      (by decide) (by decide) (by decide)).1
  · exact (c4_executor_fault_handling.2 baseRegistry oracleThrow 10 "e1" flowC4 mgrFresh
      stFresh stAborted [("task1", false)] "task1" (by decide) rfl rfl (by decide)
      (by decide)).1
